import Mathlib

/-!
Shallow embedding of the logzio-api-events polling/pagination/cursor engine:
`src/auth_api.py` (AuthApi), `src/apis_manager.py` (ApisManager orchestrator
cycle) and `src/apis/dockerhub/Dockerhub.py` (DockerHub token provider).

Machine conventions: instants are naive timestamps; where a single instant
is compared or added to, it is modelled as a `Nat` of seconds (token expiry)
or as a calendar `DateTime` record (cursor dates), matching how the Python
code manipulates them.  Fallible code returns `Except Exc`.
-/

/-- One query-string filter, mirroring `ApiFilter` (a key/value pair of
strings; `str(api_filter.value)` is applied at URL-build time, so the value
is kept as a string here). -/
structure ApiFilter where
  key : String
  value : String
deriving DecidableEq, Repr

/-- `AuthApi._build_api_url`'s loop body (src/auth_api.py lines 94-105):
append `key=value` for each filter and `&` exactly while filters remain. -/
def buildApiUrlAux (acc : String) : List ApiFilter → String
  | [] => acc
  | f :: rest =>
    let acc' := acc ++ f.key ++ "=" ++ f.value
    if rest.length > 0 then buildApiUrlAux (acc' ++ "&") rest
    else buildApiUrlAux acc' rest

/-- `AuthApi._build_api_url`: start from `self._url` (no separator is
inserted by the method itself) and run the joining loop. -/
def buildApiUrl (url : String) (filters : List ApiFilter) : String :=
  buildApiUrlAux url filters

/-- Spec-side definition (from the spec's words, for the refinement claim
about `_build_api_url`): the filters joined as `k=v` pairs with exactly one
`&` between consecutive filters and none trailing. -/
def specJoinedFilters : List ApiFilter → String
  | [] => ""
  | [f] => f.key ++ "=" ++ f.value
  | f :: g :: rest => f.key ++ "=" ++ f.value ++ "&" ++ specJoinedFilters (g :: rest)

/-- One successful upstream page response, as consumed by
`AuthApi._get_data_from_api`: the value found at the `next_url` JSON path
(`none` when the path has no match, ending pagination) and the event array
found at the `data` JSON path. -/
structure Page (α : Type) where
  nextUrl : Option String
  events : List α
deriving Repr

/-- Per-page event counts summed, i.e. `total_events_num` over a prefix. -/
def sumCounts {α : Type} (pages : List (Page α)) : Nat :=
  (pages.map (fun p => p.events.length)).sum

/-- `AuthApi._get_total_data_from_api` (src/auth_api.py lines 73-92): walk
the pages accumulating `total_events` and `total_events_num`, stopping when
`next_url is None or total_events_num >= 2500`.  The remaining list models
the successful responses the server would return at each successive
`next_url`. -/
def getTotalDataAux {α : Type} : List (Page α) → List α → Nat → List α × Nat
  | [], acc, n => (acc, n)
  | p :: rest, acc, n =>
    let acc' := acc ++ p.events
    let n' := n + p.events.length
    if p.nextUrl.isNone || 2500 ≤ n' then (acc', n')
    else getTotalDataAux rest acc' n'

/-- `AuthApi._get_total_data_from_api` entry point. -/
def getTotalDataFromApi {α : Type} (pages : List (Page α)) : List α × Nat :=
  getTotalDataAux pages [] 0

/-- Number of pages the `_get_total_data_from_api` loop visits, stated as a
standalone count: a page is visited, and the walk continues past it exactly
when it has a `next_url` and the running total stays below 2500. -/
def numVisited {α : Type} : List (Page α) → Nat → Nat
  | [], _ => 0
  | p :: rest, n =>
    if p.nextUrl.isNone || 2500 ≤ n + p.events.length then 1
    else 1 + numVisited rest (n + p.events.length)

/-- `AuthApi.fetch_data`'s yielded sequence (src/auth_api.py lines 32-42):
every accumulated event, serialized (`json.dumps`), in accumulation order;
when no events were accumulated nothing is yielded. -/
def fetchDataEvents {α : Type} (serialize : α → String) (pages : List (Page α)) : List String :=
  ((getTotalDataFromApi pages).1).map serialize

/-- The exceptions that flow through the engine: `requests.exceptions.InvalidURL`,
`requests.sessions.InvalidSchema`, `requests.HTTPError` carrying a response
status code, the repo's own `Api.ApiError`, a network-level
`requests` error, `TypeError` (e.g. `dateutil.parser.parse(None)`),
`dateutil` `ParserError`, and a catch-all for any other `Exception`. -/
inductive Exc where
  | invalidURL
  | invalidSchema
  | httpError (status : Nat)
  | apiError
  | networkError
  | typeError
  | parserError
  | otherExc
deriving DecidableEq, Repr

/-- `AuthApi._get_response_from_api` (src/auth_api.py lines 128-144): the
input is the outcome of `requests.get` + `raise_for_status`; an
`HTTPError` with status 400 or 401 is replaced by `Api.ApiError`, every
other exception is re-raised unchanged, a successful response is returned
unchanged. -/
def getResponseFromApi {α : Type} (r : Except Exc α) : Except Exc α :=
  match r with
  | .ok resp => .ok resp
  | .error (.httpError s) =>
    if s = 400 || s = 401 then .error .apiError else .error (.httpError s)
  | .error e => .error e

/-- `AuthApi._get_data_from_api` (src/auth_api.py lines 107-126): get the
response (propagating its errors), look up the `next_url` and `data` JSON
paths in the decoded body (`lookupNext`/`lookupData` model
`_get_json_path_value_from_data`, lines 169-175, which returns `None`
exactly when the path has no match); a missing `data` match raises
`Api.ApiError`; otherwise return `(next_url, events, len(events))`. -/
def getDataFromApi {α β γ : Type} (resp : Except Exc β) (lookupNext : β → Option γ)
    (lookupData : β → Option (List α)) : Except Exc (Option γ × List α × Nat) :=
  match getResponseFromApi resp with
  | .error e => .error e
  | .ok body =>
    match lookupData body with
    | none => .error .apiError
    | some events => .ok (lookupNext body, events, events.length)

/-- The DockerHub token provider's cached state
(src/apis/dockerhub/Dockerhub.py lines 24-25): `_jwt_token` and
`_token_expiry`, both initially `None`.  Expiry instants are seconds. -/
structure TokenState where
  jwtToken : Option String
  tokenExpiry : Option Nat
deriving DecidableEq, Repr

/-- Outcome of the `requests.post` to the token endpoint: `success tok`
is a 2xx response whose JSON's `"token"` field is `tok` (absent field gives
`none`); `failure` is any `requests.exceptions.RequestException` (network
error or the non-2xx raised by `raise_for_status`). -/
inductive NetResult where
  | success (tokenField : Option String)
  | failure
deriving DecidableEq, Repr

/-- Python truthiness of `self._jwt_token`: `None` and `""` are falsy. -/
def tokenTruthy : Option String → Bool
  | none => false
  | some s => !s.isEmpty

/-- `datetime.now(UTC) < self._token_expiry`, evaluated only after
`self._jwt_token` is truthy; in every reachable state a truthy token comes
with an expiry, so the `none` arm (a `TypeError` in Python) is dead. -/
def expiryValid (now : Nat) : Option Nat → Bool
  | none => false
  | some e => decide (now < e)

/-- `DockerHub._get_jwt_token` (src/apis/dockerhub/Dockerhub.py lines
50-68) at instant `now`: return the cached token untouched while it is
truthy and unexpired; otherwise POST to the login endpoint — on success
cache the response's token with expiry `now + refresh_token_interval`
minutes and return it, on failure log and fall off the function (returning
`None`) with the cached state untouched.  The third component counts the
network calls issued (0 or 1). -/
def getJwtToken (now refreshIntervalMin : Nat) (net : NetResult) (s : TokenState) :
    Option String × TokenState × Nat :=
  if tokenTruthy s.jwtToken && expiryValid now s.tokenExpiry then
    (s.jwtToken, s, 0)
  else
    match net with
    | .success tok => (tok, ⟨tok, some (now + refreshIntervalMin * 60)⟩, 1)
    | .failure => (none, s, 1)

/-- A naive calendar instant, as Python's `datetime` is used by the code
(no timezone, no microseconds: the dates flowing through
`_get_new_start_date` are second-granular). -/
structure DateTime where
  year : Nat
  month : Nat
  day : Nat
  hour : Nat
  minute : Nat
  second : Nat
deriving DecidableEq, Repr

/-- Gregorian leap-year rule, as in Python's `calendar`/`datetime`. -/
def isLeapYear (y : Nat) : Bool :=
  (y % 4 == 0 && y % 100 != 0) || y % 400 == 0

/-- Days in a month of a given year, per Python's `datetime` calendar. -/
def daysInMonth (y m : Nat) : Nat :=
  if m = 2 then (if isLeapYear y then 29 else 28)
  else if m = 4 || m = 6 || m = 9 || m = 11 then 30
  else 31

/-- Python's `datetime + timedelta(seconds=1)` on a valid date: carry the
one second through minute, hour, day, month and year. -/
def addOneSecond (dt : DateTime) : DateTime :=
  if dt.second + 1 ≤ 59 then ⟨dt.year, dt.month, dt.day, dt.hour, dt.minute, dt.second + 1⟩
  else if dt.minute + 1 ≤ 59 then ⟨dt.year, dt.month, dt.day, dt.hour, dt.minute + 1, 0⟩
  else if dt.hour + 1 ≤ 23 then ⟨dt.year, dt.month, dt.day, dt.hour + 1, 0, 0⟩
  else if dt.day + 1 ≤ daysInMonth dt.year dt.month then ⟨dt.year, dt.month, dt.day + 1, 0, 0, 0⟩
  else if dt.month + 1 ≤ 12 then ⟨dt.year, dt.month + 1, 1, 0, 0, 0⟩
  else ⟨dt.year + 1, 1, 1, 0, 0, 0⟩

/-- The fields of a `DateTime` are in the ranges Python's `datetime`
enforces on construction. -/
def ValidDateTime (dt : DateTime) : Prop :=
  1 ≤ dt.year ∧ dt.year ≤ 9999 ∧ 1 ≤ dt.month ∧ dt.month ≤ 12 ∧
  1 ≤ dt.day ∧ dt.day ≤ daysInMonth dt.year dt.month ∧
  dt.hour ≤ 23 ∧ dt.minute ≤ 59 ∧ dt.second ≤ 59

instance (dt : DateTime) : Decidable (ValidDateTime dt) := by
  unfold ValidDateTime; infer_instance

/-- The decimal digit character for `n % 10`. -/
def dChar : Nat → Char
  | 0 => '0' | 1 => '1' | 2 => '2' | 3 => '3' | 4 => '4'
  | 5 => '5' | 6 => '6' | 7 => '7' | 8 => '8' | _ => '9'

/-- Value of a decimal digit character; 10 on non-digits (sentinel). -/
def digitVal : Char → Nat
  | '0' => 0 | '1' => 1 | '2' => 2 | '3' => 3 | '4' => 4
  | '5' => 5 | '6' => 6 | '7' => 7 | '8' => 8 | '9' => 9
  | _ => 10

/-- Recognizes the ten decimal digit characters. -/
def isDig (c : Char) : Bool := digitVal c < 10

/-- Two-character zero-padded decimal, as Python's `datetime.__str__`
prints month, day, hour, minute and second. -/
def pad2 (n : Nat) : List Char := [dChar (n / 10 % 10), dChar (n % 10)]

/-- Four-character zero-padded decimal, as Python's `datetime.__str__`
prints the year (years are at most 9999). -/
def pad4 (n : Nat) : List Char :=
  [dChar (n / 1000 % 10), dChar (n / 100 % 10), dChar (n / 10 % 10), dChar (n % 10)]

/-- The characters `YYYY-MM-DD<sep>HH:MM:SS` of a datetime with the given
date/time separator character. -/
def formatWithSep (sep : Char) (dt : DateTime) : List Char :=
  pad4 dt.year ++ '-' :: pad2 dt.month ++ '-' :: pad2 dt.day ++
  sep :: pad2 dt.hour ++ ':' :: pad2 dt.minute ++ ':' :: pad2 dt.second

/-- `str(datetime)` for a second-granular naive datetime:
`"YYYY-MM-DD HH:MM:SS"` (space separator). -/
def formatDateTimeChars (dt : DateTime) : List Char := formatWithSep ' ' dt

/-- `str(datetime)` as a string. -/
def formatDateTime (dt : DateTime) : String := ⟨formatDateTimeChars dt⟩

/-- Decimal value of two digit characters. -/
def dec2 (a b : Char) : Nat := 10 * digitVal a + digitVal b

/-- Decimal value of four digit characters. -/
def dec4 (a b c d : Char) : Nat :=
  1000 * digitVal a + 100 * digitVal b + 10 * digitVal c + digitVal d

/-- `dateutil.parser.parse`, modelled on the timestamp shapes this program
feeds it: `"YYYY-MM-DD HH:MM:SS"` and `"YYYY-MM-DDTHH:MM:SS"` (space or
literal `T` separator); anything else is a parse failure. -/
def parseDateTime (s : String) : Option DateTime :=
  match s.data with
  | [y1, y2, y3, y4, '-', m1, m2, '-', d1, d2, sep, h1, h2, ':', n1, n2, ':', s1, s2] =>
    if isDig y1 && isDig y2 && isDig y3 && isDig y4 && isDig m1 && isDig m2 &&
       isDig d1 && isDig d2 && isDig h1 && isDig h2 && isDig n1 && isDig n2 &&
       isDig s1 && isDig s2 && (sep == ' ' || sep == 'T') then
      some ⟨dec4 y1 y2 y3 y4, dec2 m1 m2, dec2 d1 d2, dec2 h1 h2, dec2 n1 n2, dec2 s1 s2⟩
    else none
  | _ => none

/-- Python's `str.replace(old, new)` with single-character arguments. -/
def replaceChar (s : String) (c d : Char) : String :=
  ⟨s.data.map (fun x => if x = c then d else x)⟩

/-- The characters `urllib.parse.quote` leaves unencoded with its default
`safe='/'`: unreserved characters plus `/`. -/
def isQuoteSafe (c : Char) : Bool :=
  c.isAlpha || c.isDigit || c == '_' || c == '.' || c == '-' || c == '~' || c == '/'

/-- Uppercase hexadecimal digit character for `n < 16`. -/
def hexDigitChar (n : Nat) : Char :=
  if n < 10 then dChar n
  else if n = 10 then 'A' else if n = 11 then 'B' else if n = 12 then 'C'
  else if n = 13 then 'D' else if n = 14 then 'E' else 'F'

/-- Value of a hexadecimal digit character (upper or lower case). -/
def hexVal (c : Char) : Nat :=
  match c with
  | 'A' => 10 | 'B' => 11 | 'C' => 12 | 'D' => 13 | 'E' => 14 | 'F' => 15
  | 'a' => 10 | 'b' => 11 | 'c' => 12 | 'd' => 13 | 'e' => 14 | 'f' => 15
  | d => digitVal d

/-- `urllib.parse.quote` with default `safe='/'` over a character list:
safe characters pass through, any other (single-byte) character becomes
`%` followed by its two uppercase hex digits. -/
def percentEncodeList : List Char → List Char
  | [] => []
  | c :: rest =>
    if isQuoteSafe c then c :: percentEncodeList rest
    else '%' :: hexDigitChar (c.toNat / 16 % 16) :: hexDigitChar (c.toNat % 16) ::
         percentEncodeList rest

/-- `urllib.parse.unquote` over a character list, on the well-formed
outputs of `percentEncodeList`: a `%` followed by two hex digits decodes
to that character code, everything else passes through. -/
def percentDecodeList : List Char → List Char
  | '%' :: a :: b :: rest => Char.ofNat (16 * hexVal a + hexVal b) :: percentDecodeList rest
  | c :: rest => c :: percentDecodeList rest
  | [] => []

/-- `urllib.parse.quote` on a string. -/
def percentEncode (s : String) : String := ⟨percentEncodeList s.data⟩

/-- `urllib.parse.unquote` on a string. -/
def percentDecode (s : String) : String := ⟨percentDecodeList s.data⟩

/-- `AuthApi._get_new_start_date` (src/auth_api.py lines 177-182):
`parser.parse` the stored `_current_data_last_date` (a `None` there is a
`TypeError`, an unparseable string a `ParserError`), add one second,
`str(...)`, replace the space with `'T'`, then `urllib.parse.quote`. -/
def getNewStartDate : Option String → Except Exc String
  | none => .error .typeError
  | some s =>
    match parseDateTime s with
    | none => .error .parserError
    | some dt =>
      .ok (percentEncode (replaceChar (formatDateTime (addOneSecond dt)) ' ' 'T'))

/-- The mutable part of an `AuthApi` instance: the configured start-date
filter key (`_start_date_name`), the filter list (`_filters`) and the
cycle-computed `_current_data_last_date` (initially `None`,
src/auth_api.py line 30). -/
structure ApiState where
  startDateName : String
  filters : List ApiFilter
  currentLastDate : Option String
deriving DecidableEq, Repr

/-- The filter-list mutation of `AuthApi.update_start_date_filter`
(src/auth_api.py lines 49-59): overwrite the value of the first filter
whose key is the start-date name, or append a new filter when none
matches. -/
def updateFilters (sn v : String) : List ApiFilter → List ApiFilter
  | [] => [⟨sn, v⟩]
  | f :: rest => if f.key = sn then ⟨f.key, v⟩ :: rest else f :: updateFilters sn v rest

/-- `AuthApi.update_start_date_filter` as a whole: compute the new start
date (propagating the exceptions `_get_new_start_date` raises) and apply
the filter-list mutation. -/
def updateStartDateFilter (api : ApiState) : Except Exc ApiState :=
  (getNewStartDate api.currentLastDate).map
    (fun v => ⟨api.startDateName, updateFilters api.startDateName v api.filters,
      api.currentLastDate⟩)

/-- `dateutil`'s chronological comparison `last_date < event_date_datetime`
on naive datetimes: lexicographic on the calendar fields. -/
def dtLt (a b : DateTime) : Bool :=
  if a.year ≠ b.year then decide (a.year < b.year)
  else if a.month ≠ b.month then decide (a.month < b.month)
  else if a.day ≠ b.day then decide (a.day < b.day)
  else if a.hour ≠ b.hour then decide (a.hour < b.hour)
  else if a.minute ≠ b.minute then decide (a.minute < b.minute)
  else decide (a.second < b.second)

/-- Loop of `AuthApi._get_last_date_in_data` (src/auth_api.py lines
146-167): for each event, look up the `data_date` JSON path (a `None`
match raises `Api.ApiError`), `parser.parse` the value (failure raises
`ParserError`), and keep the maximum. -/
def getLastDateInDataAux {α : Type} (lookupDate : α → Option String) :
    List α → Option DateTime → Except Exc (Option DateTime)
  | [], last => .ok last
  | e :: rest, last =>
    match lookupDate e with
    | none => .error .apiError
    | some ds =>
      match parseDateTime ds with
      | none => .error .parserError
      | some d =>
        match last with
        | none => getLastDateInDataAux lookupDate rest (some d)
        | some l =>
          if dtLt l d then getLastDateInDataAux lookupDate rest (some d)
          else getLastDateInDataAux lookupDate rest (some l)

/-- `AuthApi._get_last_date_in_data`: run the loop from `last_date = None`
and return `str(last_date)` (the literal `"None"` when the data list was
empty, as `str(None)` gives). -/
def getLastDateInData {α : Type} (lookupDate : α → Option String) (data : List α) :
    Except Exc String :=
  (getLastDateInDataAux lookupDate data none).map
    (fun last =>
      match last with
      | some d => formatDateTime d
      | none => "None")

/-- The two exceptions `_get_last_date_in_data` can raise; it runs inside
the `fetch_data` generator after every event has been yielded, so these
are the only errors a fully-yielding fetch can end with. -/
inductive LateErr where
  | lateApiError
  | lateParserError
deriving DecidableEq, Repr

/-- Injection of the late fetch errors into the exception type. -/
def lateToExc : LateErr → Exc
  | .lateApiError => .apiError
  | .lateParserError => .parserError

/-- Outcome of iterating `api.fetch_data()` inside
`ApisManager.__send_data_to_logzio`.  Because `fetch_data` runs
`_get_total_data_from_api` eagerly before its first `yield`
(src/auth_api.py lines 32-47), any upstream/fetch error (`errEarly`)
happens before a single event is yielded; a fetch that yields events
either completes having stored a freshly computed last date (`ok`) or
fails in `_get_last_date_in_data` after all yields (`errLate`); a fetch
with no events returns without touching the stored last date
(`okEmpty`). -/
inductive FetchOutcome where
  | ok (events : List String) (lastDate : String)
  | okEmpty
  | errEarly (e : Exc)
  | errLate (events : List String) (e : LateErr)
deriving Repr

/-- The events the generator yielded before finishing or raising. -/
def fetchYielded : FetchOutcome → List String
  | .ok evs _ => evs
  | .okEmpty => []
  | .errEarly _ => []
  | .errLate evs _ => evs

/-- The exception that reaches `__send_data_to_logzio`'s `try` block, if
any: an error raised while iterating `fetch_data` pre-empts the sink's
`send_to_logzio` (the flush is never reached); otherwise the flush's own
error, if any, is raised. -/
def fetchRaised (f : FetchOutcome) (sinkErr : Option Exc) : Option Exc :=
  match f with
  | .ok _ _ => sinkErr
  | .okEmpty => sinkErr
  | .errEarly e => some e
  | .errLate _ e => some (lateToExc e)

/-- The `AuthApi` state after the fetch generator has run: a completed
fetch with events stores the newly computed last date in
`_current_data_last_date` (src/auth_api.py line 45); every other outcome
leaves the state as it was. -/
def afterFetchState (api : ApiState) : FetchOutcome → ApiState
  | .ok _ d => ⟨api.startDateName, api.filters, some d⟩
  | _ => api

/-- What one `ApisManager.__send_data_to_logzio` call did: whether it
requested process termination (`os.kill(os.getpid(), SIGTERM)`), whether
it called `api.update_start_date_filter()`, and that call's outcome. -/
structure CycleResult where
  killed : Bool
  calledUpdate : Bool
  updateResult : Option (Except Exc ApiState)
deriving Repr

/-- `ApisManager.__send_data_to_logzio` (src/apis_manager.py lines
239-272): iterate `fetch_data` into the shipper and flush; on
`InvalidURL` or `InvalidSchema`, log and kill the process; on `HTTPError`
log and kill only when the status is 401 (any other status falls through
the handler leaving `is_data_sent_successfully` as `True`); on any other
exception, log and clear `is_data_sent_successfully`; finally call
`update_start_date_filter` exactly when data was yielded and the success
flag still holds. -/
def runCycle (fetch : FetchOutcome) (sinkErr : Option Exc) (api : ApiState) : CycleResult :=
  let api' := afterFetchState api fetch
  let isDataExist := !(fetchYielded fetch).isEmpty
  let finishCycle : CycleResult :=
    if isDataExist then ⟨false, true, some (updateStartDateFilter api')⟩
    else ⟨false, false, none⟩
  match fetchRaised fetch sinkErr with
  | some .invalidURL => ⟨true, false, none⟩
  | some .invalidSchema => ⟨true, false, none⟩
  | some (.httpError s) => if s = 401 then ⟨true, false, none⟩ else finishCycle
  | some _ => ⟨false, false, none⟩
  | none => finishCycle

/-- A concrete page sequence whose first page alone reaches the 2500-event
cap while still advertising a `next_url`, used to exercise the cap. -/
def capPages : List (Page Nat) :=
  [⟨some "u", List.replicate 2500 0⟩, ⟨some "v", [1]⟩]

/-! ## Theorems -/

theorem buildApiUrlAux_cons_cons (acc : String) (f g : ApiFilter) (rs : List ApiFilter) :
    buildApiUrlAux acc (f :: g :: rs) =
      buildApiUrlAux (acc ++ f.key ++ "=" ++ f.value ++ "&") (g :: rs) := by
  simp [buildApiUrlAux]

theorem buildApiUrlAux_eq (fs : List ApiFilter) :
    ∀ acc, buildApiUrlAux acc fs = acc ++ specJoinedFilters fs := by
  induction fs with
  | nil => intro acc; simp [buildApiUrlAux, specJoinedFilters]
  | cons f rest ih =>
    intro acc
    cases rest with
    | nil => simp [buildApiUrlAux, specJoinedFilters, String.append_assoc]
    | cons g rs =>
      rw [buildApiUrlAux_cons_cons, ih]
      show _ = acc ++ specJoinedFilters (f :: g :: rs)
      simp [specJoinedFilters, String.append_assoc]

/-- C3 counterexample: on base `"b"` and the one-filter list `[k=v]` the
URL builder returns `"bk=v"`, not `base ++ "?" ++ "k=v"`: the method never
inserts a `?` itself (the configured base URL must already carry it). -/
theorem buildApiUrl_no_question_mark :
    buildApiUrl "b" [⟨"k", "v"⟩] ≠ "b" ++ "?" ++ "k=v" := by
  decide

/-- C3 (amended): for every base URL and filter list, `_build_api_url`
produces the base followed directly by the filters joined as `key=value`
pairs in list order, with exactly one `&` between consecutive filters and
no trailing `&` (no `?` is inserted; an empty filter list yields the bare
base). -/
theorem build_api_url_joins_filters (url : String) (filters : List ApiFilter) :
    buildApiUrl url filters = url ++ specJoinedFilters filters :=
  buildApiUrlAux_eq filters url

/-- C8: during a page request, an upstream `HTTPError` with status 400 or
401 is turned into the classified `Api.ApiError`; an `HTTPError` with any
other status is re-raised as itself; any non-HTTP exception is re-raised
as itself. -/
theorem response_error_classification (α : Type) (s : Nat) (e : Exc) :
    ((s = 400 ∨ s = 401) →
      @getResponseFromApi α (.error (.httpError s)) = .error .apiError) ∧
    (s ≠ 400 → s ≠ 401 →
      @getResponseFromApi α (.error (.httpError s)) = .error (.httpError s)) ∧
    ((∀ t, e ≠ .httpError t) → @getResponseFromApi α (.error e) = .error e) := by
  refine ⟨?_, ?_, ?_⟩
  · rintro (rfl | rfl) <;> rfl
  · intro h1 h2
    simp [getResponseFromApi, h1, h2]
  · intro h
    cases e <;> first
      | rfl
      | exact absurd rfl (h _)

/-- C8 witness at status 400. -/
theorem response_error_classification_witness :
    ((400 : Nat) = 400 ∨ (400 : Nat) = 401) ∧
    @getResponseFromApi Unit (.error (.httpError 400)) = .error .apiError :=
  ⟨Or.inl rfl, (response_error_classification Unit 400 .networkError).1 (Or.inl rfl)⟩

/-- C5 counterexample: with a cached (but expired) token `"old"`, a failed
refresh makes `_get_jwt_token` return `None` — not the previously cached
token value `"old"` as the claim states. -/
theorem get_jwt_token_failure_counterexample :
    (⟨some "old", some 10⟩ : TokenState).jwtToken = some "old" ∧
    (getJwtToken 20 30 .failure ⟨some "old", some 10⟩).1 ≠ some "old" := by
  exact ⟨rfl, by decide⟩

/-- C5 (amended): when a token refresh attempt is made (no valid cached
token) and fails, `_get_jwt_token` logs and returns `None` — regardless
of any previously cached token — leaving the cached token and expiry
fields unchanged, after exactly one network call. -/
theorem get_jwt_token_failure_returns_none (now itv : Nat) (s : TokenState)
    (h : (tokenTruthy s.jwtToken && expiryValid now s.tokenExpiry) = false) :
    getJwtToken now itv .failure s = (none, s, 1) := by
  simp [getJwtToken, h]

/-- C5 witness: expired cached token `"old"` at instant 20. -/
theorem get_jwt_token_failure_returns_none_witness :
    ((tokenTruthy (some "old") && expiryValid 20 (some 10)) = false) ∧
    getJwtToken 20 30 .failure ⟨some "old", some 10⟩ = (none, ⟨some "old", some 10⟩, 1) :=
  ⟨by decide, get_jwt_token_failure_returns_none 20 30 ⟨some "old", some 10⟩ (by decide)⟩

/-- C6: starting from a state with no valid cached token, a first
`_get_jwt_token` call issues one network call and caches the token with
expiry `now + interval`; a second call strictly before that expiry
returns the cached token unchanged with zero network calls (whatever the
network would answer); a third call at or past the expiry instant issues
another network call and replaces the cached token and expiry wholesale. -/
theorem token_reuse_and_refresh (t0 t1 t2 itv : Nat) (tok tok2 : String)
    (s0 : TokenState) (net1 : NetResult) (htok : tok ≠ "")
    (hfresh : (tokenTruthy s0.jwtToken && expiryValid t0 s0.tokenExpiry) = false)
    (h1 : t1 < t0 + itv * 60) (h2 : t0 + itv * 60 ≤ t2) :
    getJwtToken t0 itv (.success (some tok)) s0 =
      (some tok, ⟨some tok, some (t0 + itv * 60)⟩, 1) ∧
    getJwtToken t1 itv net1 ⟨some tok, some (t0 + itv * 60)⟩ =
      (some tok, ⟨some tok, some (t0 + itv * 60)⟩, 0) ∧
    getJwtToken t2 itv (.success (some tok2)) ⟨some tok, some (t0 + itv * 60)⟩ =
      (some tok2, ⟨some tok2, some (t2 + itv * 60)⟩, 1) := by
  have hne : tok.isEmpty = false := by
    cases hiso : tok.isEmpty
    · rfl
    · exact absurd ((String.isEmpty_iff tok).mp hiso) htok
  refine ⟨by simp [getJwtToken, hfresh], ?_, ?_⟩
  · simp [getJwtToken, tokenTruthy, expiryValid, hne, h1]
  · simp [getJwtToken, tokenTruthy, expiryValid, hne, Nat.not_lt.mpr h2]

/-- C6 witness: refresh at 0 with interval 1 minute, reuse at 5, refresh
again at 60. -/
theorem token_reuse_and_refresh_witness :
    (("a" : String) ≠ "" ∧
      (tokenTruthy (none : Option String) && expiryValid 0 none) = false ∧
      (5 : Nat) < 0 + 1 * 60 ∧ 0 + 1 * 60 ≤ (60 : Nat)) ∧
    (getJwtToken 0 1 (.success (some "a")) ⟨none, none⟩ =
      (some "a", ⟨some "a", some 60⟩, 1) ∧
    getJwtToken 5 1 .failure ⟨some "a", some 60⟩ = (some "a", ⟨some "a", some 60⟩, 0) ∧
    getJwtToken 60 1 (.success (some "b")) ⟨some "a", some 60⟩ =
      (some "b", ⟨some "b", some 120⟩, 1)) := by
  refine ⟨⟨by decide, by decide, by decide, by decide⟩, ?_⟩
  have h := token_reuse_and_refresh 0 5 60 1 "a" "b" ⟨none, none⟩ .failure
    (by decide) (by decide) (by decide) (by decide)
  simpa using h

/-- C7: when the cycle's raised exception is the sink's `InvalidURL`,
`InvalidSchema` or an HTTP 401 (the fetch itself raised nothing, so the
sink's error is what reaches the handler), the orchestrator requests
process termination and `update_start_date_filter` is not called, leaving
the cursor un-advanced. -/
theorem sink_fatal_errors_kill (fetch : FetchOutcome) (api : ApiState) (e : Exc)
    (hfetch : fetchRaised fetch (some e) = some e)
    (he : e = .invalidURL ∨ e = .invalidSchema ∨ e = .httpError 401) :
    runCycle fetch (some e) api = ⟨true, false, none⟩ := by
  rcases he with rfl | rfl | rfl <;> simp [runCycle, hfetch]

/-- C7 witness: a cycle that yielded one event and then got a sink 401. -/
theorem sink_fatal_errors_kill_witness :
    (fetchRaised (.ok ["ev"] "2024-01-01 00:00:10") (some (.httpError 401)) =
      some (.httpError 401)) ∧
    runCycle (.ok ["ev"] "2024-01-01 00:00:10") (some (.httpError 401))
      ⟨"from", [⟨"from", "old"⟩], none⟩ = ⟨true, false, none⟩ :=
  ⟨rfl, sink_fatal_errors_kill (.ok ["ev"] "2024-01-01 00:00:10")
    ⟨"from", [⟨"from", "old"⟩], none⟩ (.httpError 401) rfl (Or.inr (Or.inr rfl))⟩

/-- C1: concrete run of `__send_data_to_logzio` in which one event was
yielded and the sink flush raised an HTTP 500.  The non-401 `HTTPError`
branch only logs — it does not clear `is_data_sent_successfully` — so the
code goes on to call `update_start_date_filter`, overwriting the cursor
filter, where the claim (and the spec's own cursor invariant) require the
cursor to stay unchanged. -/
theorem sink_http_500_advances_cursor :
    runCycle (.ok ["ev"] "2024-01-01 00:00:10") (some (.httpError 500))
      ⟨"from", [⟨"from", "old"⟩], none⟩ =
      ⟨false, true, some (.ok ⟨"from", [⟨"from", "2024-01-01T00%3A00%3A11"⟩],
        some "2024-01-01 00:00:10"⟩)⟩ := by
  rfl

theorem getTotalDataAux_eq {α : Type} (pages : List (Page α)) :
    ∀ (acc : List α) (n : Nat),
      getTotalDataAux pages acc n =
        (acc ++ ((pages.take (numVisited pages n)).map Page.events).flatten,
         n + sumCounts (pages.take (numVisited pages n))) := by
  induction pages with
  | nil => intro acc n; simp [getTotalDataAux, numVisited, sumCounts]
  | cons p rest ih =>
    intro acc n
    by_cases hc : (p.nextUrl.isNone || decide (2500 ≤ n + p.events.length)) = true
    · simp [getTotalDataAux, numVisited, hc, sumCounts]
    · have h1 : getTotalDataAux (p :: rest) acc n =
          getTotalDataAux rest (acc ++ p.events) (n + p.events.length) := by
        simp [getTotalDataAux, hc]
      have h2 : numVisited (p :: rest) n = numVisited rest (n + p.events.length) + 1 := by
        simp [numVisited, hc, Nat.add_comm]
      rw [h1, ih, h2]
      simp [sumCounts, List.append_assoc, Nat.add_assoc]

theorem numVisited_le_length {α : Type} (pages : List (Page α)) :
    ∀ n, numVisited pages n ≤ pages.length := by
  induction pages with
  | nil => intro n; simp [numVisited]
  | cons p rest ih =>
    intro n
    by_cases hc : (p.nextUrl.isNone || decide (2500 ≤ n + p.events.length)) = true
    · simp [numVisited, hc]
    · have h2 : numVisited (p :: rest) n = numVisited rest (n + p.events.length) + 1 := by
        simp [numVisited, hc, Nat.add_comm]
      have := ih (n + p.events.length)
      simp only [h2, List.length_cons]
      omega

theorem numVisited_le_of_cap {α : Type} (pages : List (Page α)) :
    ∀ n j, 1 ≤ j → 2500 ≤ n + sumCounts (pages.take j) → numVisited pages n ≤ j := by
  induction pages with
  | nil => intro n j h1 _; simp [numVisited]
  | cons p rest ih =>
    intro n j h1 h2
    by_cases hc : (p.nextUrl.isNone || decide (2500 ≤ n + p.events.length)) = true
    · have h3 : numVisited (p :: rest) n = 1 := by simp [numVisited, hc]
      omega
    · have h3 : numVisited (p :: rest) n = numVisited rest (n + p.events.length) + 1 := by
        simp [numVisited, hc, Nat.add_comm]
      have hlt : ¬ 2500 ≤ n + p.events.length := by
        intro hcap
        exact hc (by simp [hcap])
      cases j with
      | zero => omega
      | succ j' =>
        cases j' with
        | zero =>
          simp [sumCounts] at h2
          omega
        | succ j'' =>
          have hih := ih (n + p.events.length) (j'' + 1) (by omega) (by
            simp only [List.take_succ_cons] at h2
            simp only [sumCounts, List.map_cons, List.sum_cons] at h2 ⊢
            omega)
          omega

/-- C2: over any sequence of successful page responses, `fetch_data`
yields exactly the events of the pages the loop visits, serialized, in
page order with within-page order preserved (a flattened prefix of the
page list); the running count equals the sum of the visited pages' event
counts; and the loop stops by page `j` whenever the first `j` pages
already hold at least 2500 events, even if a further `next_url` is
present — the cap being checked only after each whole page, the page that
crosses it is still included in full. -/
theorem fetch_data_pagination {α : Type} (serialize : α → String) (pages : List (Page α)) :
    fetchDataEvents serialize pages =
      (((pages.take (numVisited pages 0)).map Page.events).flatten).map serialize ∧
    (getTotalDataFromApi pages).2 = sumCounts (pages.take (numVisited pages 0)) ∧
    numVisited pages 0 ≤ pages.length ∧
    (∀ j, 1 ≤ j → 2500 ≤ sumCounts (pages.take j) → numVisited pages 0 ≤ j) := by
  have h := getTotalDataAux_eq pages [] 0
  refine ⟨?_, ?_, numVisited_le_length pages 0, ?_⟩
  · simp [fetchDataEvents, getTotalDataFromApi, h]
  · simp [getTotalDataFromApi, h]
  · intro j h1 h2
    exact numVisited_le_of_cap pages 0 j h1 (by simpa using h2)

/-- C2 witness: a first page holding exactly 2500 events and advertising
a `next_url`; the loop still stops after that page. -/
theorem fetch_data_pagination_witness :
    ((1 : Nat) ≤ 1 ∧ 2500 ≤ sumCounts (capPages.take 1)) ∧ numVisited capPages 0 ≤ 1 := by
  have hsum : sumCounts (capPages.take 1) = 2500 := by
    rw [show capPages.take 1 = [⟨some "u", List.replicate 2500 0⟩] from rfl]
    show List.sum [(List.replicate 2500 (0 : Nat)).length] = 2500
    rw [List.length_replicate]
    rfl
  refine ⟨⟨le_refl 1, by rw [hsum]⟩, ?_⟩
  exact (fetch_data_pagination (fun n => toString n) capPages).2.2.2 1 (le_refl 1)
    (by rw [hsum])

theorem isDig_dChar (d : Nat) : isDig (dChar d) = true := by
  rcases d with _ | _ | _ | _ | _ | _ | _ | _ | _ | d <;> rfl

theorem dChar_ne_space (d : Nat) : dChar d ≠ ' ' := by
  intro h
  have hd := isDig_dChar d
  rw [h] at hd
  exact absurd hd (by decide)

theorem digitVal_dChar_mod (n : Nat) : digitVal (dChar (n % 10)) = n % 10 := by
  have h : n % 10 < 10 := Nat.mod_lt _ (by decide)
  interval_cases hh : (n % 10) <;> rfl

theorem enc_nil : percentEncodeList [] = [] := rfl

theorem dec_nil : percentDecodeList [] = [] := rfl

theorem enc_dChar (d : Nat) (t : List Char) :
    percentEncodeList (dChar d :: t) = dChar d :: percentEncodeList t := by
  rcases d with _ | _ | _ | _ | _ | _ | _ | _ | _ | d <;> rfl

theorem dec_dChar (d : Nat) (t : List Char) :
    percentDecodeList (dChar d :: t) = dChar d :: percentDecodeList t := by
  rcases d with _ | _ | _ | _ | _ | _ | _ | _ | _ | d <;> rfl

theorem enc_dash (t : List Char) :
    percentEncodeList ('-' :: t) = '-' :: percentEncodeList t := rfl

theorem dec_dash (t : List Char) :
    percentDecodeList ('-' :: t) = '-' :: percentDecodeList t := rfl

theorem enc_sepT (t : List Char) :
    percentEncodeList ('T' :: t) = 'T' :: percentEncodeList t := rfl

theorem dec_sepT (t : List Char) :
    percentDecodeList ('T' :: t) = 'T' :: percentDecodeList t := rfl

theorem enc_colon (t : List Char) :
    percentEncodeList (':' :: t) = '%' :: '3' :: 'A' :: percentEncodeList t := rfl

theorem dec_pct_colon (t : List Char) :
    percentDecodeList ('%' :: '3' :: 'A' :: t) = ':' :: percentDecodeList t := rfl

theorem parseDateTime_explicit (y1 y2 y3 y4 m1 m2 d1 d2 h1 h2 n1 n2 s1 s2 sep : Char) :
    parseDateTime ⟨[y1, y2, y3, y4, '-', m1, m2, '-', d1, d2, sep,
        h1, h2, ':', n1, n2, ':', s1, s2]⟩ =
      (if isDig y1 && isDig y2 && isDig y3 && isDig y4 && isDig m1 && isDig m2 &&
          isDig d1 && isDig d2 && isDig h1 && isDig h2 && isDig n1 && isDig n2 &&
          isDig s1 && isDig s2 && (sep == ' ' || sep == 'T') then
        some ⟨dec4 y1 y2 y3 y4, dec2 m1 m2, dec2 d1 d2, dec2 h1 h2, dec2 n1 n2, dec2 s1 s2⟩
      else none) := rfl

theorem formatWithSep_explicit (sep : Char) (dt : DateTime) :
    formatWithSep sep dt =
      [dChar (dt.year / 1000 % 10), dChar (dt.year / 100 % 10), dChar (dt.year / 10 % 10),
       dChar (dt.year % 10), '-', dChar (dt.month / 10 % 10), dChar (dt.month % 10), '-',
       dChar (dt.day / 10 % 10), dChar (dt.day % 10), sep,
       dChar (dt.hour / 10 % 10), dChar (dt.hour % 10), ':',
       dChar (dt.minute / 10 % 10), dChar (dt.minute % 10), ':',
       dChar (dt.second / 10 % 10), dChar (dt.second % 10)] := by
  simp [formatWithSep, pad4, pad2]

theorem parseDateTime_formatWithSep (dt : DateTime) (sep : Char)
    (hY : dt.year ≤ 9999) (hMO : dt.month ≤ 99) (hD : dt.day ≤ 99)
    (hH : dt.hour ≤ 99) (hMI : dt.minute ≤ 99) (hS : dt.second ≤ 99)
    (hsep : sep = ' ' ∨ sep = 'T') :
    parseDateTime ⟨formatWithSep sep dt⟩ = some dt := by
  have hsepb : (sep == ' ' || sep == 'T') = true := by
    rcases hsep with rfl | rfl <;> rfl
  obtain ⟨Y, MO, D, H, MI, S⟩ := dt
  dsimp only at hY hMO hD hH hMI hS
  rw [formatWithSep_explicit]
  dsimp only
  rw [parseDateTime_explicit]
  simp only [isDig_dChar, hsepb, Bool.true_and, Bool.and_true, Bool.and_self, if_true,
    Option.some.injEq, DateTime.mk.injEq, dec4, dec2, digitVal_dChar_mod]
  refine ⟨by omega, by omega, by omega, by omega, by omega, by omega⟩

theorem decode_encode_formatT (dt : DateTime) :
    percentDecodeList (percentEncodeList (formatWithSep 'T' dt)) = formatWithSep 'T' dt := by
  rw [formatWithSep_explicit]
  simp only [enc_dChar, enc_dash, enc_sepT, enc_colon, enc_nil,
    dec_dChar, dec_dash, dec_sepT, dec_pct_colon, dec_nil]

theorem replaceChar_format (dt : DateTime) :
    (replaceChar (formatDateTime dt) ' ' 'T').data = formatWithSep 'T' dt := by
  simp [replaceChar, formatDateTime, formatDateTimeChars, formatWithSep, pad4, pad2,
    dChar_ne_space]

theorem daysInMonth_le (y m : Nat) : daysInMonth y m ≤ 31 := by
  unfold daysInMonth
  split
  · split <;> omega
  · split <;> omega

theorem addOneSecond_bounds (dt : DateTime) (hv : ValidDateTime dt) (h9 : dt.year ≤ 9998) :
    (addOneSecond dt).year ≤ 9999 ∧ (addOneSecond dt).month ≤ 99 ∧
    (addOneSecond dt).day ≤ 99 ∧ (addOneSecond dt).hour ≤ 99 ∧
    (addOneSecond dt).minute ≤ 99 ∧ (addOneSecond dt).second ≤ 99 := by
  obtain ⟨h1, h2, h3, h4, h5, h6, h7, h8, h9'⟩ := hv
  have hdm := daysInMonth_le dt.year dt.month
  unfold addOneSecond
  repeat' split
  all_goals refine ⟨?_, ?_, ?_, ?_, ?_, ?_⟩ <;> simp <;> omega

/-- C4: for a last date `T` stored by a fetch cycle (a valid calendar
instant, year at most 9998, formatted as `str(datetime)` does),
`update_start_date_filter` succeeds, overwriting the first filter whose
key is the configured start-date name (appending one if absent) with a
value `v` such that percent-decoding `v` and re-parsing it as a timestamp
yields exactly `T` plus one second, the decoded value carrying a literal
`T` date/time separator. -/
theorem update_start_date_round_trip (dt : DateTime) (api : ApiState)
    (hv : ValidDateTime dt) (h9 : dt.year ≤ 9998)
    (hl : api.currentLastDate = some (formatDateTime dt)) :
    ∃ v, getNewStartDate api.currentLastDate = .ok v ∧
      updateStartDateFilter api =
        .ok ⟨api.startDateName, updateFilters api.startDateName v api.filters,
          api.currentLastDate⟩ ∧
      parseDateTime (percentDecode v) = some (addOneSecond dt) ∧
      'T' ∈ (percentDecode v).data := by
  have hdm := daysInMonth_le dt.year dt.month
  have hbounds := addOneSecond_bounds dt hv h9
  obtain ⟨b1, b2, b3, b4, b5, b6⟩ := hbounds
  obtain ⟨h1, h2, h3, h4, h5, h6, h7, h8, h9'⟩ := hv
  have hparse0 : parseDateTime (formatDateTime dt) = some dt := by
    have h := parseDateTime_formatWithSep dt ' ' (by omega) (by omega) (by omega)
      (by omega) (by omega) (by omega) (Or.inl rfl)
    simpa [formatDateTime, formatDateTimeChars] using h
  have hval : getNewStartDate api.currentLastDate =
      .ok (percentEncode (replaceChar (formatDateTime (addOneSecond dt)) ' ' 'T')) := by
    rw [hl]
    simp [getNewStartDate, hparse0]
  have hdata : (percentDecode (percentEncode
      (replaceChar (formatDateTime (addOneSecond dt)) ' ' 'T'))).data =
      formatWithSep 'T' (addOneSecond dt) := by
    show percentDecodeList (percentEncodeList
      (replaceChar (formatDateTime (addOneSecond dt)) ' ' 'T').data) = _
    rw [replaceChar_format, decode_encode_formatT]
  have hstr : percentDecode (percentEncode
      (replaceChar (formatDateTime (addOneSecond dt)) ' ' 'T')) =
      ⟨formatWithSep 'T' (addOneSecond dt)⟩ := by
    apply String.ext
    exact hdata
  refine ⟨_, hval, ?_, ?_, ?_⟩
  · unfold updateStartDateFilter
    rw [hval]
    rfl
  · rw [hstr]
    exact parseDateTime_formatWithSep (addOneSecond dt) 'T' b1 b2 b3 b4 b5 b6 (Or.inr rfl)
  · rw [hstr]
    show 'T' ∈ formatWithSep 'T' (addOneSecond dt)
    rw [formatWithSep_explicit]
    simp

/-- C4 witness at the concrete last date `2024-01-01 00:00:02`. -/
theorem update_start_date_round_trip_witness :
    (ValidDateTime ⟨2024, 1, 1, 0, 0, 2⟩ ∧ (2024 : Nat) ≤ 9998) ∧
    (∃ v,
      getNewStartDate (ApiState.mk "from" [⟨"from", "x"⟩]
          (some (formatDateTime ⟨2024, 1, 1, 0, 0, 2⟩))).currentLastDate = .ok v ∧
      updateStartDateFilter (ApiState.mk "from" [⟨"from", "x"⟩]
          (some (formatDateTime ⟨2024, 1, 1, 0, 0, 2⟩))) =
        .ok ⟨"from", updateFilters "from" v [⟨"from", "x"⟩],
          some (formatDateTime ⟨2024, 1, 1, 0, 0, 2⟩)⟩ ∧
      parseDateTime (percentDecode v) = some (addOneSecond ⟨2024, 1, 1, 0, 0, 2⟩) ∧
      'T' ∈ (percentDecode v).data) :=
  ⟨⟨by decide, by decide⟩,
    update_start_date_round_trip ⟨2024, 1, 1, 0, 0, 2⟩
      (ApiState.mk "from" [⟨"from", "x"⟩] (some (formatDateTime ⟨2024, 1, 1, 0, 0, 2⟩)))
      (by decide) (by decide) rfl⟩

theorem getLastDateInDataAux_ne_ok {α : Type} (lookupDate : α → Option String)
    (events : List α) :
    ∀ (last : Option DateTime) (r : Option DateTime),
      (∃ e ∈ events, lookupDate e = none) →
      getLastDateInDataAux lookupDate events last ≠ .ok r := by
  induction events with
  | nil =>
    intro last r hex
    rcases hex with ⟨e, he, _⟩
    simp at he
  | cons e rest ih =>
    intro last r hex
    rcases hmatch : lookupDate e with _ | ds
    · simp [getLastDateInDataAux, hmatch]
    · have hex' : ∃ x ∈ rest, lookupDate x = none := by
        rcases hex with ⟨x, hx, hnone⟩
        rcases List.mem_cons.mp hx with rfl | hx'
        · rw [hmatch] at hnone; cases hnone
        · exact ⟨x, hx', hnone⟩
      rcases hp : parseDateTime ds with _ | d
      · simp [getLastDateInDataAux, hmatch, hp]
      · cases last with
        | none =>
          simp only [getLastDateInDataAux, hmatch, hp]
          exact ih _ r hex'
        | some l =>
          simp only [getLastDateInDataAux, hmatch, hp]
          split
          · exact ih _ r hex'
          · exact ih _ r hex'

theorem getLastDateInDataAux_apiError {α : Type} (lookupDate : α → Option String)
    (events : List α) :
    ∀ last : Option DateTime,
      (∃ e ∈ events, lookupDate e = none) →
      (∀ e ∈ events, ∀ s, lookupDate e = some s → (parseDateTime s).isSome = true) →
      getLastDateInDataAux lookupDate events last = .error .apiError := by
  induction events with
  | nil =>
    intro last hex _
    rcases hex with ⟨e, he, _⟩
    simp at he
  | cons e rest ih =>
    intro last hex hparse
    rcases hmatch : lookupDate e with _ | ds
    · simp [getLastDateInDataAux, hmatch]
    · have hex' : ∃ x ∈ rest, lookupDate x = none := by
        rcases hex with ⟨x, hx, hnone⟩
        rcases List.mem_cons.mp hx with rfl | hx'
        · rw [hmatch] at hnone; cases hnone
        · exact ⟨x, hx', hnone⟩
      have hps : (parseDateTime ds).isSome = true :=
        hparse e (List.mem_cons_self e rest) ds hmatch
      rcases hp : parseDateTime ds with _ | d
      · rw [hp] at hps; cases hps
      · have hrest : ∀ x ∈ rest, ∀ s, lookupDate x = some s →
            (parseDateTime s).isSome = true :=
          fun x hx => hparse x (List.mem_cons_of_mem e hx)
        cases last with
        | none =>
          simp only [getLastDateInDataAux, hmatch, hp]
          exact ih _ hex' hrest
        | some l =>
          simp only [getLastDateInDataAux, hmatch, hp]
          split
          · exact ih _ hex' hrest
          · exact ih _ hex' hrest

/-- C9: a `data` JSON path matching nothing in a page body makes
`_get_data_from_api` raise `Api.ApiError`; and a `data_date` JSON path
matching nothing in some fetched event makes `_get_last_date_in_data`
abort — it can never return normally, and when every date value that is
found parses, the raised error is exactly `Api.ApiError`. -/
theorem missing_json_path_raises {α β γ : Type} (lookupNext : β → Option γ)
    (lookupData : β → Option (List α)) (lookupDate : α → Option String) :
    (∀ body : β, lookupData body = none →
      getDataFromApi (.ok body) lookupNext lookupData = .error .apiError) ∧
    (∀ events : List α, (∃ e ∈ events, lookupDate e = none) →
      (∀ r, getLastDateInData lookupDate events ≠ .ok r) ∧
      ((∀ e ∈ events, ∀ s, lookupDate e = some s → (parseDateTime s).isSome = true) →
        getLastDateInData lookupDate events = .error .apiError)) := by
  refine ⟨?_, ?_⟩
  · intro body hnone
    simp [getDataFromApi, getResponseFromApi, hnone]
  · intro events hex
    refine ⟨?_, ?_⟩
    · intro r hok
      unfold getLastDateInData at hok
      rcases haux : getLastDateInDataAux lookupDate events none with e' | last
      · rw [haux] at hok; cases hok
      · exact getLastDateInDataAux_ne_ok lookupDate events none last hex haux
    · intro hparse
      unfold getLastDateInData
      rw [getLastDateInDataAux_apiError lookupDate events none hex hparse]
      rfl

/-- C9 witness: a lookup that never matches, one page body and one
event. -/
theorem missing_json_path_raises_witness :
    ((fun _ : Nat => (none : Option (List Nat))) 0 = none) ∧
    getDataFromApi (.ok 0) (fun _ : Nat => (none : Option Nat))
      (fun _ : Nat => (none : Option (List Nat))) = .error .apiError ∧
    getLastDateInData (fun _ : Nat => (none : Option String)) [0] = .error .apiError := by
  refine ⟨rfl, ?_, ?_⟩
  · exact (missing_json_path_raises (fun _ : Nat => (none : Option Nat))
      (fun _ => (none : Option (List Nat))) (fun _ => (none : Option String))).1 0 rfl
  · exact ((missing_json_path_raises (fun _ : Nat => (none : Option Nat))
      (fun _ => (none : Option (List Nat))) (fun _ => (none : Option String))).2 [0]
      ⟨0, by simp, rfl⟩).2 (by intro e he s hs; simp at hs)

/-- C10 counterexample: a cycle whose delivery failed (the sink flush
raised an HTTP 500) still invokes `update_start_date_filter`, refuting
the claim's justification that the call happens only when delivery
succeeded. -/
theorem update_invoked_despite_failed_delivery :
    (runCycle (.ok ["ev"] "2024-01-01 00:00:10") (some (.httpError 500))
      ⟨"from", [], none⟩).calledUpdate = true := by
  rfl

/-- C10 (amended): calling `update_start_date_filter` with no last date
ever computed (`_current_data_last_date` is `None`) raises a `TypeError`
rather than returning normally; and in the orchestrator that state is
unreachable, because the cycle calls `update_start_date_filter` only when
the fetch generator completed with at least one yielded event, which
always stores a computed last date first (delivery success is not
actually required — a non-401 sink HTTP error still leads to the call). -/
theorem update_without_last_date_unreachable :
    (∀ api : ApiState, api.currentLastDate = none →
      updateStartDateFilter api = .error .typeError) ∧
    (∀ (fetch : FetchOutcome) (sinkErr : Option Exc) (api : ApiState),
      (runCycle fetch sinkErr api).calledUpdate = true →
      fetchYielded fetch ≠ [] ∧ (afterFetchState api fetch).currentLastDate ≠ none) := by
  refine ⟨?_, ?_⟩
  · intro api hnone
    simp [updateStartDateFilter, getNewStartDate, hnone, Except.map]
  · intro fetch sinkErr api h
    cases fetch with
    | ok evs d =>
      refine ⟨?_, by simp [afterFetchState]⟩
      intro hnil
      subst hnil
      cases sinkErr with
      | none => simp [runCycle, fetchRaised, fetchYielded] at h
      | some e =>
        cases e with
        | httpError s =>
          simp [runCycle, fetchRaised, fetchYielded] at h
          split at h <;> simp at h
        | invalidURL => simp [runCycle, fetchRaised] at h
        | invalidSchema => simp [runCycle, fetchRaised] at h
        | apiError => simp [runCycle, fetchRaised] at h
        | networkError => simp [runCycle, fetchRaised] at h
        | typeError => simp [runCycle, fetchRaised] at h
        | parserError => simp [runCycle, fetchRaised] at h
        | otherExc => simp [runCycle, fetchRaised] at h
    | okEmpty =>
      exfalso
      cases sinkErr with
      | none => simp [runCycle, fetchRaised, fetchYielded] at h
      | some e =>
        cases e with
        | httpError s =>
          simp [runCycle, fetchRaised, fetchYielded] at h
          split at h <;> simp at h
        | invalidURL => simp [runCycle, fetchRaised] at h
        | invalidSchema => simp [runCycle, fetchRaised] at h
        | apiError => simp [runCycle, fetchRaised] at h
        | networkError => simp [runCycle, fetchRaised] at h
        | typeError => simp [runCycle, fetchRaised] at h
        | parserError => simp [runCycle, fetchRaised] at h
        | otherExc => simp [runCycle, fetchRaised] at h
    | errEarly e =>
      exfalso
      cases e with
      | httpError s =>
        simp [runCycle, fetchRaised, fetchYielded] at h
        split at h <;> simp at h
      | invalidURL => simp [runCycle, fetchRaised] at h
      | invalidSchema => simp [runCycle, fetchRaised] at h
      | apiError => simp [runCycle, fetchRaised] at h
      | networkError => simp [runCycle, fetchRaised] at h
      | typeError => simp [runCycle, fetchRaised] at h
      | parserError => simp [runCycle, fetchRaised] at h
      | otherExc => simp [runCycle, fetchRaised] at h
    | errLate evs e =>
      exfalso
      cases e with
      | lateApiError => simp [runCycle, fetchRaised, lateToExc] at h
      | lateParserError => simp [runCycle, fetchRaised, lateToExc] at h

/-- C10 witness: a fresh source (no last date) makes
`update_start_date_filter` raise. -/
theorem update_without_last_date_unreachable_witness :
    ((ApiState.mk "from" [] none).currentLastDate = none) ∧
    updateStartDateFilter (ApiState.mk "from" [] none) = .error .typeError :=
  ⟨rfl, (update_without_last_date_unreachable).1 (ApiState.mk "from" [] none) rfl⟩
